import Mathlib

/-!
Verification development for the field-path resolution / canonical
key-derivation engine of this repository, shallowly embedded in Lean.

Embedded source files:
- `vendor/codeberg.org/gruf/go-structr/runtime.go`
  (`find_field`, `extract_fields`, `deref`, `next_offset`, `struct_field`)
- `vendor/codeberg.org/gruf/go-storage/s3/s3.go` (`Config`, `getS3Config`)
- the API-to-domain enum translation functions
  (`APIVisToVis`, `APIMarkerNameToMarkerName`, `APIFilterActionToFilterAction`)

Modelling conventions: Go machine memory is modelled as an address space of
abstract word-sized cells (`Heap : Nat → Nat`); pointers are addresses with
`0` playing the role of `nil`; every scalar and pointer field occupies one
cell, and a struct occupies the concatenation of its fields' cells, so a
field's structural offset is the sum of the sizes of the fields preceding
it (Go padding/alignment does not matter to any statement made here).
Scalar values are abstract word codes (`Val.word`), with code `0` the zero
value of every scalar type (for strings, the code of `""`).
-/

namespace Structr

/-- Scalar (non-struct, non-pointer) Go types occurring as leaf types. -/
inductive ScalarTy where
  | string
  | int64
  | boolean
  | timestamp
deriving DecidableEq, Repr

mutual
/-- Model of `reflect.Type` restricted to the shapes `find_field`
traverses: scalars, pointers, and structs with named fields in
declaration order. -/
inductive GoType where
  | scalar (s : ScalarTy)
  | ptr (elem : GoType)
  | strct (fields : Fields)
deriving DecidableEq, Repr

/-- Ordered named fields of a struct type. -/
inductive Fields where
  | nil
  | cons (name : String) (ty : GoType) (rest : Fields)
deriving DecidableEq, Repr
end

mutual
/-- Abstract size in cells of a value of the given type: scalars and
pointers take one cell, a struct takes the sum of its fields. -/
def GoType.size : GoType → Nat
  | .scalar _ => 1
  | .ptr _ => 1
  | .strct fs => fs.size

/-- Total size in cells of a field list. -/
def Fields.size : Fields → Nat
  | .nil => 0
  | .cons _ t rest => t.size + rest.size
end

/-- Model of `reflect.Type.FieldByName` on our struct model: returns the
field's structural offset (sum of sizes of the preceding fields, the
model's `reflect.StructField.Offset`) and its type. -/
def Fields.byName : Fields → String → Option (Nat × GoType)
  | .nil, _ => none
  | .cons n t rest, name =>
    if n = name then some (0, t)
    else (rest.byName name).map (fun p => (t.size + p.1, p.2))

/-- The `for t.Kind() == reflect.Pointer` loop of `find_field`
(runtime.go:86-89): fully unwrap pointer layers, counting them. -/
def strip_ptrs : GoType → GoType × Nat
  | .ptr t => let (u, n) := strip_ptrs t; (u, n + 1)
  | t => (t, 0)

/-- Runtime values repacked as `any` (the model of what
`reflect2.Type.UnsafeIndirect` yields): a scalar or pointer cell's word,
or the tuple of a struct's field values. -/
inductive Val where
  | word (n : Nat)
  | tuple (vs : List Val)
deriving Repr

mutual
/-- Zero value of a type (the model of `reflect2.Type.UnsafeNew`
followed by `UnsafeIndirect`): scalars and pointers zero to word `0`
(the empty string / nil pointer), structs to the tuple of their fields'
zero values. -/
def zeroVal : GoType → Val
  | .scalar _ => .word 0
  | .ptr _ => .word 0
  | .strct fs => .tuple (zeroFields fs)

/-- Zero values of a field list, in order. -/
def zeroFields : Fields → List Val
  | .nil => []
  | .cons _ t rest => zeroVal t :: zeroFields rest
end

/-- Machine memory: a total map from cell addresses to word contents.
Address `0` is `nil`. -/
abbrev Heap : Type := Nat → Nat

mutual
/-- Read a value of the given type stored at the given address (the model
of `reflect2.Type.UnsafeIndirect` at a data pointer). -/
def readVal (h : Heap) : GoType → Nat → Val
  | .scalar _, a => .word (h a)
  | .ptr _, a => .word (h a)
  | .strct fs, a => .tuple (readFields h fs a)

/-- Read each field of a struct laid out at the given base address. -/
def readFields (h : Heap) : Fields → Nat → List Val
  | .nil, _ => []
  | .cons _ t rest, a => readVal h t a :: readFields h rest (a + t.size)
end

/-- Bytes of a canonical encoding. -/
abbrev Bytes : Type := List Nat

/-- A mangler: the deterministic value-to-bytes function of the Canonical
Encoder. -/
abbrev Mangler : Type := Val → Bytes

/-- Fixed-width (8-byte, big-endian) encoding of a word, per the spec's
fixed-width numeric encoding. -/
def encode_word (n : Nat) : Bytes :=
  [n / 2 ^ 56 % 256, n / 2 ^ 48 % 256, n / 2 ^ 40 % 256, n / 2 ^ 32 % 256,
   n / 2 ^ 24 % 256, n / 2 ^ 16 % 256, n / 2 ^ 8 % 256, n % 256]

/-- Modelled from the spec: the Canonical Encoder's per-type byte encoder
(`mangler.Mangler` from codeberg.org/gruf/go-mangler, a dependency whose
source is not part of this repository's examined files). Per §4.2 each
supported scalar type gets a deterministic fixed-width encoding of the
value, tagged by the type so distinct types cannot collide; non-word
values of a scalar type cannot arise from well-typed reads and encode as
the tagged zero. -/
def encode_scalar (s : ScalarTy) : Mangler := fun v =>
  let tag : Nat :=
    match s with
    | .string => 1
    | .int64 => 2
    | .boolean => 3
    | .timestamp => 4
  match v with
  | .word n => tag :: encode_word n
  | .tuple _ => tag :: encode_word 0

/-- Modelled from the spec: `mangler.Get` (codeberg.org/gruf/go-mangler,
not among the examined files). Per §4.2 the encoder supports fixed-width
numerics, strings, booleans and timestamps — the scalar types of this
model — and fails lookup on any other type, surfaced as a compile-time
`ConfigurationError` (§4.2, §4.1). -/
def mangler_get : GoType → Option Mangler
  | .scalar s => some (encode_scalar s)
  | .ptr _ => none
  | .strct _ => none

/-- Model of `next_offset` (runtime.go:47-50): number of pointer
dereferences, then the cell offset from the resulting location. -/
structure next_offset where
  derefs : Nat
  offset : Nat
deriving DecidableEq, Repr

/-- Model of `struct_field` (runtime.go:17-41): the compiled field
descriptor. -/
structure struct_field where
  /-- Leaf type information (`type2`, the reflect2 type). -/
  type2 : GoType
  /-- Navigation steps (`offsets`). -/
  offsets : List next_offset
  /-- The leaf type's mangler (`mangle`). -/
  mangle : Mangler
  /-- The leaf type's zero value (`zero`, an `UnsafeNew` allocation in the
  source, modelled by the value it holds). -/
  zero : Val
  /-- The mangled zero value (`zerostr`). -/
  zerostr : Bytes

/-- The `panicf` failures of `find_field`, i.e. the spec's
`ConfigurationError` cases. -/
inductive ConfigurationError where
  /-- Failure "field is not exported: %s" (runtime.go:69). -/
  | notExported (name : String)
  /-- Failure "field %s is not struct (or ptr-to): %s" (runtime.go:93). -/
  | notStruct (name : String)
  /-- Failure "unknown field: %s" (runtime.go:101). -/
  | unknownField (name : String)
  /-- Encoder lookup failure for an unsupported leaf type (§4.2). -/
  | noMangler
deriving DecidableEq, Repr

/-- Model of the closure `is_exported` (runtime.go:58-61): whether the
first character of the name is an upper-case letter. (Go decodes the
first UTF-8 rune and applies `unicode.IsUpper`; on the empty string the
decoded replacement rune is not upper. Field names here are ASCII.) -/
def is_exported (name : String) : Bool :=
  match name.data with
  | [] => false
  | c :: _ => c.isUpper

/-- The `for len(names) > 0` loop of `find_field` (runtime.go:79-110):
pop each name (panic if unexported), unwrap pointer layers counting
dereferences, require a struct, look the field up by name (panic if
unknown), record the navigation step, and continue at the field's type.
Returns the accumulated steps and the final (leaf) type. -/
def find_field_loop : GoType → List String → Except ConfigurationError (List next_offset × GoType)
  | t, [] => .ok ([], t)
  | t, name :: rest =>
    if is_exported name then
      match strip_ptrs t with
      | (GoType.strct fs, n) =>
        match fs.byName name with
        | some (off, ft) =>
          (find_field_loop ft rest).map (fun p => (⟨n, off⟩ :: p.1, p.2))
        | none => .error (.unknownField name)
      | _ => .error (.notStruct name)
    else .error (.notExported name)

/-- Model of `find_field` (runtime.go:54-124): compile a field path into
a `struct_field` descriptor. After the navigation loop it resolves the
leaf type's mangler, allocates the zero value, and caches the mangled
zero (`zerostr := string(mangle(nil, zero))`, runtime.go:119-121). -/
def find_field (t : GoType) (names : List String) : Except ConfigurationError struct_field :=
  match find_field_loop t names with
  | .error e => .error e
  | .ok (offs, leaf) =>
    match mangler_get leaf with
    | none => .error .noMangler
    | some m =>
      let z := zeroVal leaf
      .ok { type2 := leaf, offsets := offs, mangle := m, zero := z, zerostr := m z }

/-- Model of `deref` (runtime.go:159-167): dereference a pointer `n`
times, stopping at (and returning) `nil`. -/
def deref (h : Heap) (p : Nat) : Nat → Nat
  | 0 => p
  | n + 1 => if p = 0 then 0 else deref h (h p) n

/-- The inner `for _, offset := range field.offsets` loop of
`extract_fields` (runtime.go:136-149): dereference, and if `nil` is hit
stop with `none` (the source substitutes the zero allocation and
breaks); otherwise jump forward by the offset and continue. Returns the
resolved data address when every step succeeds. -/
def walk_offsets (h : Heap) : Nat → List next_offset → Option Nat
  | p, [] => some p
  | p, off :: rest =>
    let q := deref h p off.derefs
    if q = 0 then none
    else walk_offsets h (q + off.offset) rest

/-- One iteration of the outer loop of `extract_fields`
(runtime.go:131-153): walk the field's offsets from the instance
pointer; on a `nil` hit the source points `fptr` at the zero allocation,
so the final `UnsafeIndirect` repack yields the zero value; otherwise it
reads the leaf value at the resolved address. -/
def extract_field (h : Heap) (p : Nat) (f : struct_field) : Val :=
  match walk_offsets h p f.offsets with
  | none => f.zero
  | some a => readVal h f.type2 a

/-- Model of `extract_fields` (runtime.go:128-156): extract each
descriptor's value from the instance at `p`, one result per descriptor
in order. -/
def extract_fields (h : Heap) (p : Nat) (fields : List struct_field) : List Val :=
  fields.map (extract_field h p)

/-! Concrete fixtures: the spec's §8 scenario
`Person { Name: string, Address: *Address }`, `Address { City: string }`
(field names capitalised, as Go exported fields). -/

/-- The `Address` record type of the spec's concrete scenario. -/
def AddressT : GoType := .strct (.cons "City" (.scalar .string) .nil)

/-- The `Person` record type of the spec's concrete scenario: a string
`Name` and an optional (pointer) `Address`. -/
def PersonT : GoType :=
  .strct (.cons "Name" (.scalar .string) (.cons "Address" (.ptr AddressT) .nil))

/-- A heap holding a `Person` at address 1 whose `Address` pointer field
(cell 2, structural offset 1) is nil: cell 1 holds the `Name` string
code 7, cell 2 holds 0. -/
def personHeap : Heap := fun a => if a = 1 then 7 else 0

end Structr

namespace S3

/-- Model of `getS3Config`'s chunk-size floor
(`minChunkSz = 5 * 1024 * 1024`, s3.go:87). -/
def minChunkSz : Int := 5 * 1024 * 1024

/-- Model of `Config` (s3.go:48-82). The minio option structs
(`minio.Options`, `minio.GetObjectOptions`, …) are opaque payloads to
`getS3Config` — it only copies them — so each is modelled as an abstract
word of data whose zero value is 0; the numeric fields keep Go's `int64`
/ `int` semantics as `Int`. -/
structure Config where
  CoreOpts : Nat
  GetOpts : Nat
  PutOpts : Nat
  PutChunkSize : Int
  PutChunkOpts : Nat
  StatOpts : Nat
  RemoveOpts : Nat
  ListSize : Int
deriving DecidableEq, Repr

/-- Model of `defaultConfig` (s3.go:35-44): zero options, 4MiB
`PutChunkSize`, `ListSize` 200. -/
def defaultConfig : Config :=
  { CoreOpts := 0, GetOpts := 0, PutOpts := 0,
    PutChunkSize := 4 * 1024 * 1024,
    PutChunkOpts := 0, StatOpts := 0, RemoveOpts := 0,
    ListSize := 200 }

/-- Model of `getS3Config` (s3.go:85-113). A nil `cfg` pointer yields the
defaults. Otherwise `PutChunkSize` is floored at `minChunkSz` (the
source tests `<=`) and `ListSize` at 200 when non-positive, and the
result is rebuilt by the composite literal of s3.go:104-112 — which
names `CoreOpts`, `GetOpts`, `PutOpts`, `PutChunkSize`, `ListSize`,
`StatOpts` and `RemoveOpts` but omits `PutChunkOpts`, leaving that field
at its zero value in the returned Config. -/
def getS3Config (cfg : Option Config) : Config :=
  match cfg with
  | none => defaultConfig
  | some c =>
    let c := if c.PutChunkSize ≤ minChunkSz then { c with PutChunkSize := minChunkSz } else c
    let c := if c.ListSize ≤ 0 then { c with ListSize := 200 } else c
    { CoreOpts := c.CoreOpts,
      GetOpts := c.GetOpts,
      PutOpts := c.PutOpts,
      PutChunkSize := c.PutChunkSize,
      ListSize := c.ListSize,
      StatOpts := c.StatOpts,
      RemoveOpts := c.RemoveOpts,
      PutChunkOpts := 0 }

end S3

namespace TypeUtils

/-!
Model of the API-model-to-domain-model enum translation functions
(`APIVisToVis`, `APIMarkerNameToMarkerName`, `APIFilterActionToFilterAction`).
The enumerated constants live in the `apimodel` and `gtsmodel` packages,
whose sources are not among the examined files.

Modelled from the spec: the enum types are Go string types and each
package defines one distinct string constant per enumerated value
("a pure total/partial function mapping one enumerated value to another
with an explicit unknown result"); the constants are modelled as distinct
strings named as in the translation functions, with `FilterActionNone`
the `FilterAction` zero value `""`.
-/

/-- Constant of `apimodel.Visibility`. -/
def apiVisibilityPublic : String := "public"
/-- Constant of `apimodel.Visibility`. -/
def apiVisibilityUnlisted : String := "unlisted"
/-- Constant of `apimodel.Visibility`. -/
def apiVisibilityPrivate : String := "private"
/-- Constant of `apimodel.Visibility`. -/
def apiVisibilityMutualsOnly : String := "mutuals_only"
/-- Constant of `apimodel.Visibility`. -/
def apiVisibilityDirect : String := "direct"

/-- Constant of `gtsmodel.Visibility`. -/
def gtsVisibilityPublic : String := "gts_public"
/-- Constant of `gtsmodel.Visibility`. -/
def gtsVisibilityUnlocked : String := "gts_unlocked"
/-- Constant of `gtsmodel.Visibility`. -/
def gtsVisibilityFollowersOnly : String := "gts_followers_only"
/-- Constant of `gtsmodel.Visibility`. -/
def gtsVisibilityMutualsOnly : String := "gts_mutuals_only"
/-- Constant of `gtsmodel.Visibility`. -/
def gtsVisibilityDirect : String := "gts_direct"

/-- Constant of `apimodel.MarkerName`. -/
def apiMarkerNameHome : String := "home"
/-- Constant of `apimodel.MarkerName`. -/
def apiMarkerNameNotifications : String := "notifications"
/-- Constant of `gtsmodel.MarkerName`. -/
def gtsMarkerNameHome : String := "gts_home"
/-- Constant of `gtsmodel.MarkerName`. -/
def gtsMarkerNameNotifications : String := "gts_notifications"

/-- Constant of `apimodel.FilterAction`. -/
def apiFilterActionWarn : String := "warn"
/-- Constant of `apimodel.FilterAction`. -/
def apiFilterActionHide : String := "hide"
/-- Constant of `gtsmodel.FilterAction`. -/
def gtsFilterActionWarn : String := "gts_warn"
/-- Constant of `gtsmodel.FilterAction`. -/
def gtsFilterActionHide : String := "gts_hide"
/-- Zero value of `gtsmodel.FilterAction`, the explicit unknown result. -/
def gtsFilterActionNone : String := ""

/-- Model of `APIVisToVis`: a switch on the API visibility constants,
falling through to `""` for any other input. -/
def APIVisToVis (m : String) : String :=
  if m = apiVisibilityPublic then gtsVisibilityPublic
  else if m = apiVisibilityUnlisted then gtsVisibilityUnlocked
  else if m = apiVisibilityPrivate then gtsVisibilityFollowersOnly
  else if m = apiVisibilityMutualsOnly then gtsVisibilityMutualsOnly
  else if m = apiVisibilityDirect then gtsVisibilityDirect
  else ""

/-- Model of `APIMarkerNameToMarkerName`: a switch on the API marker-name
constants, falling through to `""`. -/
def APIMarkerNameToMarkerName (m : String) : String :=
  if m = apiMarkerNameHome then gtsMarkerNameHome
  else if m = apiMarkerNameNotifications then gtsMarkerNameNotifications
  else ""

/-- Model of `APIFilterActionToFilterAction`: a switch on the API filter
action constants, falling through to `gtsFilterActionNone`. -/
def APIFilterActionToFilterAction (m : String) : String :=
  if m = apiFilterActionWarn then gtsFilterActionWarn
  else if m = apiFilterActionHide then gtsFilterActionHide
  else gtsFilterActionNone

end TypeUtils

namespace Structr

/-- Number of pointer (optional) layers wrapping a type; written from the
spec's "unwrap zero or more layers of optional/nullable indirection". -/
def ptr_depth : GoType → Nat
  | .ptr t => ptr_depth t + 1
  | _ => 0

/-- Full unwrapping of a type's pointer layers; written from the spec's
"after full unwrapping". -/
def strip : GoType → GoType
  | .ptr t => strip t
  | t => t

/-- Whether an `Except` result is a success. -/
def exceptOk {ε α : Type} : Except ε α → Bool
  | .ok _ => true
  | .error _ => false

/-- Acceptance condition of the Path Compiler, written from the spec's
words (§4.1, §4.2, §7): every segment must name an accessible (exported)
field, the current type after fully unwrapping indirections before each
segment must be a structured type, the named field must exist on it, and
the leaf type must have a registered encoder. -/
def spec_accepts : GoType → List String → Bool
  | t, [] => (mangler_get t).isSome
  | t, name :: rest =>
    is_exported name &&
      match strip t with
      | .strct fs =>
        match fs.byName name with
        | some (_, ft) => spec_accepts ft rest
        | none => false
      | _ => false

/-- Specification relation tying a compiled navigation list to its path
(the shape stated in §3 and §4.1): one step per segment; the step's
dereference count is the number of pointer layers wrapping the type at
that segment; the step's offset is the structural offset of the named
field within the fully unwrapped struct type; the final step resolves to
the leaf type. -/
inductive NavSteps : GoType → List String → List next_offset → GoType → Prop where
  | nil (t : GoType) : NavSteps t [] [] t
  | cons {t ft leaf : GoType} {fs : Fields} {name : String}
      {rest : List String} {offs : List next_offset} {off : Nat} :
      is_exported name = true →
      strip t = GoType.strct fs →
      fs.byName name = some (off, ft) →
      NavSteps ft rest offs leaf →
      NavSteps t (name :: rest) (⟨ptr_depth t, off⟩ :: offs) leaf

/-- The descriptor `find_field PersonT ["Name"]` compiles to. -/
def sfName : struct_field where
  type2 := .scalar .string
  offsets := [⟨0, 0⟩]
  mangle := encode_scalar .string
  zero := .word 0
  zerostr := encode_scalar .string (.word 0)

/-- The descriptor `find_field PersonT ["Address", "City"]` compiles to:
step one reaches the `Address` pointer field at offset 1 with no
dereference; step two dereferences it once and reaches `City` at offset
0 of the pointed-to `Address`. -/
def sfCity : struct_field where
  type2 := .scalar .string
  offsets := [⟨0, 1⟩, ⟨1, 0⟩]
  mangle := encode_scalar .string
  zero := .word 0
  zerostr := encode_scalar .string (.word 0)

end Structr

namespace S3

/-- A configuration with in-range sizes and a non-zero `PutChunkOpts`
payload. -/
def cfgChunkOpts : Config :=
  { defaultConfig with PutChunkSize := 8 * 1024 * 1024, PutChunkOpts := 7 }

end S3

namespace Structr

theorem strip_ptrs_eq : ∀ t : GoType, strip_ptrs t = (strip t, ptr_depth t)
  | .scalar _ => rfl
  | .ptr u => by simp [strip_ptrs, strip, ptr_depth, strip_ptrs_eq u]
  | .strct _ => rfl

theorem deref_nil (h : Heap) (n : Nat) : deref h 0 n = 0 := by
  cases n <;> simp [deref]

theorem find_field_zerostr {t : GoType} {names : List String} {sf : struct_field}
    (h : find_field t names = .ok sf) : sf.zerostr = sf.mangle sf.zero := by
  unfold find_field at h
  split at h
  · exact absurd h (by simp)
  · split at h
    · exact absurd h (by simp)
    · injection h with h2
      subst h2
      rfl

theorem find_field_name : find_field PersonT ["Name"] = .ok sfName := rfl

theorem find_field_city : find_field PersonT ["Address", "City"] = .ok sfCity := rfl

/-- C2: for every record type and field path accepted by compilation, the
compiled descriptor's cached zero encoding equals its encode function
applied to its zero value; the equality is established by `find_field`
itself at compile time (runtime.go:119-121). -/
theorem zero_encoding_consistent (t : GoType) (names : List String) :
    match find_field t names with
    | .ok sf => sf.zerostr = sf.mangle sf.zero
    | .error _ => True := by
  cases hf : find_field t names
  · trivial
  · exact find_field_zerostr hf

/-- C7: the encode (mangle) function a compiled descriptor carries is
deterministic — two applications to the same logical value yield
identical byte sequences. -/
theorem mangle_deterministic (t : GoType) (names : List String) :
    match find_field t names with
    | .ok sf => ∀ v : Val, sf.mangle v = sf.mangle v
    | .error _ => True := by
  cases find_field t names
  · trivial
  · intro v; rfl

/-- C6: extraction over an ordered descriptor sequence returns a sequence
of exactly the same length whose i-th element is the value extracted for
the i-th descriptor. -/
theorem extract_fields_order_preserving (h : Heap) (p : Nat)
    (fields : List struct_field) :
    (extract_fields h p fields).length = fields.length ∧
    ∀ i : Nat, (extract_fields h p fields)[i]? = (fields[i]?).map (extract_field h p) := by
  refine ⟨List.length_map _ _, fun i => ?_⟩
  simp [extract_fields]

/-- C9: extracting with a nil instance pointer is total and yields every
descriptor's zero value: `deref` returns nil unchanged (also when the
dereference count is zero), and the nil check precedes the offset jump,
so no offset is ever added to a nil pointer and no memory is read. -/
theorem extract_nil_instance_zero (h : Heap) (fields : List struct_field)
    (hne : ∀ f ∈ fields, f.offsets ≠ []) :
    extract_fields h 0 fields = fields.map (fun f => f.zero) := by
  unfold extract_fields
  refine List.map_congr_left ?_
  intro f hf
  rcases hoe : f.offsets with _ | ⟨off, rest⟩
  · exact absurd hoe (hne f hf)
  · have hd : deref h 0 off.derefs = 0 := deref_nil h off.derefs
    have hw : walk_offsets h 0 f.offsets = none := by
      rw [hoe]; simp [walk_offsets, hd]
    simp [extract_field, hw]

theorem extract_nil_instance_zero_witness :
    (∀ f ∈ [sfName, sfCity], f.offsets ≠ []) ∧
    extract_fields personHeap 0 [sfName, sfCity] =
      [sfName, sfCity].map (fun f => f.zero) :=
  ⟨by decide, extract_nil_instance_zero personHeap [sfName, sfCity] (by decide)⟩

/-- C1: if, for a compiled descriptor, unwrapping the indirections of the
navigation hits nil at any step, extraction for that field yields exactly
the descriptor's precomputed zero value, whose encoding is exactly the
cached zero encoding; extraction is total and never raises. -/
theorem extract_absent_yields_zero (t : GoType) (names : List String)
    (h : Heap) (p : Nat) :
    match find_field t names with
    | .ok sf =>
        walk_offsets h p sf.offsets = none →
        extract_field h p sf = sf.zero ∧
        sf.mangle (extract_field h p sf) = sf.zerostr
    | .error _ => True := by
  cases hf : find_field t names
  · trivial
  case ok sf =>
    intro hw
    have hz : extract_field h p sf = sf.zero := by simp [extract_field, hw]
    exact ⟨hz, by rw [hz, find_field_zerostr hf]⟩

theorem extract_absent_yields_zero_witness :
    walk_offsets personHeap 1 sfCity.offsets = none ∧
    (extract_field personHeap 1 sfCity = sfCity.zero ∧
     sfCity.mangle (extract_field personHeap 1 sfCity) = sfCity.zerostr) := by
  have h := extract_absent_yields_zero PersonT ["Address", "City"] personHeap 1
  rw [find_field_city] at h
  exact ⟨rfl, h rfl⟩

/-- C4: the spec's concrete scenario. Compiling `["Address", "City"]` on
`Person` succeeds (yielding `sfCity`); extracting from a `Person` whose
`Address` is nil yields the string zero value (word 0, the code of `""`)
whose encoding is the cached string zero encoding; compiling
`["Address", "Country"]` fails with the unknown-field
`ConfigurationError`. -/
theorem person_scenario :
    find_field PersonT ["Address", "City"] = .ok sfCity ∧
    extract_fields personHeap 1 [sfCity] = [Val.word 0] ∧
    sfCity.zero = Val.word 0 ∧
    sfCity.zerostr = sfCity.mangle (Val.word 0) ∧
    find_field PersonT ["Address", "Country"] =
      .error (.unknownField "Country") :=
  ⟨rfl, rfl, rfl, rfl, rfl⟩

end Structr


namespace Structr

theorem find_field_loop_cons (t : GoType) (name : String) (rest : List String) :
    find_field_loop t (name :: rest) =
      if is_exported name then
        match strip t with
        | .strct fs =>
          match fs.byName name with
          | some (off, ft) =>
            (find_field_loop ft rest).map
              (fun p => (⟨ptr_depth t, off⟩ :: p.1, p.2))
          | none => .error (.unknownField name)
        | _ => .error (.notStruct name)
      else .error (.notExported name) := by
  simp only [find_field_loop]
  rw [strip_ptrs_eq]
  cases strip t with
  | scalar s => rfl
  | ptr u => rfl
  | strct fs =>
    cases fs.byName name with
    | none => rfl
    | some q =>
      obtain ⟨off, ft⟩ := q
      rfl

theorem find_field_loop_nav :
    ∀ (names : List String) (t : GoType) (offs : List next_offset) (leaf : GoType),
      find_field_loop t names = .ok (offs, leaf) →
      NavSteps t names offs leaf ∧ offs.length = names.length := by
  intro names
  induction names with
  | nil =>
    intro t offs leaf h
    unfold find_field_loop at h
    injection h with h2
    injection h2 with ha hb
    subst ha; subst hb
    exact ⟨NavSteps.nil t, rfl⟩
  | cons name rest ih =>
    intro t offs leaf h
    rw [find_field_loop_cons] at h
    split at h
    · split at h
      · split at h
        · rename_i hex x1 fs hs x2 off ft hb
          cases hr : find_field_loop ft rest with
          | error e => rw [hr] at h; simp [Except.map] at h
          | ok p =>
            obtain ⟨offs2, leaf2⟩ := p
            rw [hr] at h
            simp only [Except.map] at h
            injection h with h2
            injection h2 with ha hb2
            subst ha; subst hb2
            obtain ⟨hnav, hlen⟩ := ih ft offs2 leaf2 hr
            exact ⟨NavSteps.cons hex hs hb hnav, by simp [hlen]⟩
        · cases h
      · cases h
    · cases h


/-- C5: for every type and path accepted by compilation, the compiled
descriptor has exactly one navigation step per path segment; each step's
dereference count is the number of pointer layers wrapping the type at
that segment, each step's offset is the structural offset of the named
field in the fully unwrapped struct, and the final step resolves to the
descriptor's leaf type — the `NavSteps` relation. -/
theorem find_field_navigation_shape (t : GoType) (names : List String) :
    match find_field t names with
    | .ok sf => NavSteps t names sf.offsets sf.type2 ∧
        sf.offsets.length = names.length
    | .error _ => True := by
  cases hf : find_field t names with
  | error e => trivial
  | ok sf =>
    unfold find_field at hf
    split at hf
    · cases hf
    · rename_i offs leaf hl
      split at hf
      · cases hf
      · injection hf with h2
        subst h2
        exact find_field_loop_nav names t offs leaf hl

theorem find_field_loop_spec_ok :
    ∀ (names : List String) (t : GoType) (offs : List next_offset) (leaf : GoType),
      find_field_loop t names = .ok (offs, leaf) →
      spec_accepts t names = (mangler_get leaf).isSome := by
  intro names
  induction names with
  | nil =>
    intro t offs leaf h
    unfold find_field_loop at h
    injection h with h2
    injection h2 with ha hb
    subst hb
    rfl
  | cons name rest ih =>
    intro t offs leaf h
    rw [find_field_loop_cons] at h
    split at h
    · split at h
      · split at h
        · rename_i hex x1 fs hs x2 off ft hb
          cases hr : find_field_loop ft rest with
          | error e => rw [hr] at h; simp [Except.map] at h
          | ok p =>
            obtain ⟨offs2, leaf2⟩ := p
            rw [hr] at h
            simp only [Except.map] at h
            injection h with h2
            injection h2 with ha hb2
            subst hb2
            unfold spec_accepts
            simp [hex, hs, hb, ih ft offs2 leaf2 hr]
        · cases h
      · cases h
    · cases h

theorem find_field_loop_spec_err :
    ∀ (names : List String) (t : GoType) (e : ConfigurationError),
      find_field_loop t names = .error e →
      spec_accepts t names = false := by
  intro names
  induction names with
  | nil => intro t e h; cases h
  | cons name rest ih =>
    intro t e h
    rw [find_field_loop_cons] at h
    split at h
    · split at h
      · split at h
        · rename_i hex x1 fs hs x2 off ft hb
          cases hr : find_field_loop ft rest with
          | error e2 =>
            unfold spec_accepts
            simp [hex, hs, hb, ih ft e2 hr]
          | ok p =>
            rw [hr] at h
            simp [Except.map] at h
        · rename_i hex x1 fs hs x2 hb
          unfold spec_accepts
          simp [hex, hs, hb]
      · rename_i hex x1 hns
        unfold spec_accepts
        simp only [hex, Bool.true_and]
    · rename_i hex
      unfold spec_accepts
      simp [hex]

/-- C3: compilation succeeds exactly when the spec acceptance condition
holds — it fails (with a `ConfigurationError`) precisely when a segment
names an unexported (inaccessible) field, when a segment names a field
absent from the current struct, when the type reached after fully
unwrapping indirections before a segment is not a struct, or when the
leaf type has no registered encoder; it never fails otherwise. -/
theorem find_field_ok_iff_spec_accepts (t : GoType) (names : List String) :
    exceptOk (find_field t names) = spec_accepts t names := by
  cases hf : find_field t names with
  | error e =>
    unfold find_field at hf
    split at hf
    · rename_i e2 hl
      rw [find_field_loop_spec_err names t e2 hl]
      rfl
    · rename_i offs leaf hl
      split at hf
      · rename_i hm
        rw [find_field_loop_spec_ok names t offs leaf hl, hm]
        rfl
      · cases hf
  | ok sf =>
    unfold find_field at hf
    split at hf
    · cases hf
    · rename_i offs leaf hl
      split at hf
      · cases hf
      · rename_i m hm
        rw [find_field_loop_spec_ok names t offs leaf hl, hm]
        rfl

end Structr

namespace S3

/-- C10 counterexample: the Config returned by `getS3Config` does not
agree with the input configuration on `PutChunkOpts` — the rebuilding
composite literal (s3.go:104-112) omits that field, zeroing it — here
witnessed by a configuration with in-range sizes and `PutChunkOpts`
payload 7. -/
theorem getS3Config_drops_chunk_opts :
    (getS3Config (some cfgChunkOpts)).PutChunkOpts ≠ cfgChunkOpts.PutChunkOpts := by
  decide

/-- C10 (amended): for every non-nil configuration, the returned Config
preserves `CoreOpts`, `GetOpts`, `PutOpts`, `StatOpts` and `RemoveOpts`
unchanged; `PutChunkSize` is raised to the 5 MiB minimum when not above
it and is otherwise unchanged; `ListSize` is raised to 200 when
non-positive and is otherwise unchanged (so neither is ever lowered);
and `PutChunkOpts` is reset to its zero value. -/
theorem getS3Config_characterization (cfg : Config) :
    getS3Config (some cfg) =
      { CoreOpts := cfg.CoreOpts, GetOpts := cfg.GetOpts, PutOpts := cfg.PutOpts,
        PutChunkSize := if cfg.PutChunkSize ≤ minChunkSz then minChunkSz
          else cfg.PutChunkSize,
        PutChunkOpts := 0, StatOpts := cfg.StatOpts, RemoveOpts := cfg.RemoveOpts,
        ListSize := if cfg.ListSize ≤ 0 then 200 else cfg.ListSize } ∧
    cfg.PutChunkSize ≤ (getS3Config (some cfg)).PutChunkSize ∧
    cfg.ListSize ≤ (getS3Config (some cfg)).ListSize := by
  unfold getS3Config
  by_cases h1 : cfg.PutChunkSize ≤ minChunkSz <;>
    by_cases h2 : cfg.ListSize ≤ 0 <;>
      simp [h1, h2] <;> omega

end S3

namespace TypeUtils

/-- C8: each translation function is a pure total map sending each
enumerated API constant to its corresponding domain constant, and every
other input to its single designated unknown result — the empty string
for visibilities and marker names, `gtsFilterActionNone` for filter
actions. -/
theorem api_translations_spec :
    (APIVisToVis apiVisibilityPublic = gtsVisibilityPublic ∧
     APIVisToVis apiVisibilityUnlisted = gtsVisibilityUnlocked ∧
     APIVisToVis apiVisibilityPrivate = gtsVisibilityFollowersOnly ∧
     APIVisToVis apiVisibilityMutualsOnly = gtsVisibilityMutualsOnly ∧
     APIVisToVis apiVisibilityDirect = gtsVisibilityDirect ∧
     ∀ m : String,
       m ∉ [apiVisibilityPublic, apiVisibilityUnlisted, apiVisibilityPrivate,
            apiVisibilityMutualsOnly, apiVisibilityDirect] →
       APIVisToVis m = "") ∧
    (APIMarkerNameToMarkerName apiMarkerNameHome = gtsMarkerNameHome ∧
     APIMarkerNameToMarkerName apiMarkerNameNotifications =
       gtsMarkerNameNotifications ∧
     ∀ m : String, m ∉ [apiMarkerNameHome, apiMarkerNameNotifications] →
       APIMarkerNameToMarkerName m = "") ∧
    (APIFilterActionToFilterAction apiFilterActionWarn = gtsFilterActionWarn ∧
     APIFilterActionToFilterAction apiFilterActionHide = gtsFilterActionHide ∧
     ∀ m : String, m ∉ [apiFilterActionWarn, apiFilterActionHide] →
       APIFilterActionToFilterAction m = gtsFilterActionNone) := by
  refine ⟨⟨rfl, rfl, rfl, rfl, rfl, ?_⟩, ⟨rfl, rfl, ?_⟩, ⟨rfl, rfl, ?_⟩⟩
  · intro m hm
    simp only [List.mem_cons, List.not_mem_nil, or_false, not_or] at hm
    obtain ⟨h1, h2, h3, h4, h5⟩ := hm
    unfold APIVisToVis
    rw [if_neg h1, if_neg h2, if_neg h3, if_neg h4, if_neg h5]
  · intro m hm
    simp only [List.mem_cons, List.not_mem_nil, or_false, not_or] at hm
    obtain ⟨h1, h2⟩ := hm
    unfold APIMarkerNameToMarkerName
    rw [if_neg h1, if_neg h2]
  · intro m hm
    simp only [List.mem_cons, List.not_mem_nil, or_false, not_or] at hm
    obtain ⟨h1, h2⟩ := hm
    unfold APIFilterActionToFilterAction
    rw [if_neg h1, if_neg h2]

theorem api_translations_spec_witness :
    ("incoming" ∉ [apiVisibilityPublic, apiVisibilityUnlisted,
        apiVisibilityPrivate, apiVisibilityMutualsOnly, apiVisibilityDirect] ∧
     APIVisToVis "incoming" = "") ∧
    ("incoming" ∉ [apiMarkerNameHome, apiMarkerNameNotifications] ∧
     APIMarkerNameToMarkerName "incoming" = "") ∧
    ("incoming" ∉ [apiFilterActionWarn, apiFilterActionHide] ∧
     APIFilterActionToFilterAction "incoming" = gtsFilterActionNone) :=
  ⟨⟨by decide, api_translations_spec.1.2.2.2.2.2 "incoming" (by decide)⟩,
   ⟨by decide, api_translations_spec.2.1.2.2 "incoming" (by decide)⟩,
   ⟨by decide, api_translations_spec.2.2.2.2 "incoming" (by decide)⟩⟩

end TypeUtils
